import Mathlib

/-!
Verification development for the Siodb Rust driver (`src/siodb/mod.rs`,
`src/siodb/results.rs`, `src/siodb/errors.rs`).

The wire-protocol engine is embedded shallowly: byte streams are `List Nat`
(each element a byte value `< 256`), the protobuf `CodedInputStream` /
`CodedOutputStream` primitives (`read_raw_varint32/64`, `read_raw_bytes`,
varint writing) are reimplemented as pure functions, and the stateful
driver methods (`execute`, `next`, `authenticate`, `write_message`,
`read_message`) become explicit state-passing functions.

Rust control flow that returns `Err(DriverError)` is modelled with
`Outcome.err kind msg`; Rust `.unwrap()` / `.expect(...)` process aborts are
modelled with `Outcome.fatal msg` (they never reach the caller as values).
The error *kinds* (`misuse`, `server`, `auth`, `protocol`, ...) are the
spec's classification of the distinct error sites in the source; the Rust
`DriverError` itself only carries the message string.
-/

set_option maxRecDepth 8000

namespace Siodb

/-! ## Protobuf varint codec

`rust-protobuf`'s `CodedInputStream::read_raw_varint64` reads up to 10
bytes, accumulating `result |= (b & 0x7F) << (i*7)` (the `<< 63` shift of
the tenth byte silently drops overflowing bits, i.e. the accumulator is
taken mod 2^64), returning once a byte has its continuation bit clear and
failing after 10 continuation bytes.  `read_raw_varint32` is
`read_raw_varint64` truncated to 32 bits.  `write_raw_varint32` emits the
standard 7-bit-group little-endian continuation encoding. -/

/-- One step of `read_raw_varint64`: fuel counts the remaining allowed
bytes (10 at the top call), `shift` the current bit offset, `acc` the
accumulator. `none` models the codec error (EOF or over-long varint). -/
def readVarint64Aux : Nat → Nat → Nat → List Nat → Option (Nat × List Nat)
  | 0, _, _, _ => none
  | _ + 1, _, _, [] => none
  | fuel + 1, shift, acc, b :: rest =>
    let acc2 := (acc + b % 128 * 2 ^ shift) % 2 ^ 64
    if b % 256 < 128 then some (acc2, rest)
    else readVarint64Aux fuel (shift + 7) acc2 rest

/-- `CodedInputStream::read_raw_varint64`. -/
def readRawVarint64 (s : List Nat) : Option (Nat × List Nat) :=
  readVarint64Aux 10 0 0 s

/-- `CodedInputStream::read_raw_varint32` (`read_raw_varint64() as u32`). -/
def readRawVarint32 (s : List Nat) : Option (Nat × List Nat) :=
  match readRawVarint64 s with
  | some (v, rest) => some (v % 2 ^ 32, rest)
  | none => none

/-- Varint writer, with fuel (10 groups cover any value below 2^70, in
particular every `u32`/`u64` the source ever writes). -/
def encodeVarintAux : Nat → Nat → List Nat
  | 0, _ => []
  | fuel + 1, n => if n < 128 then [n] else (n % 128 + 128) :: encodeVarintAux fuel (n / 128)

/-- `write_raw_varint32` / `write_raw_varint64`: standard protobuf varint
encoding of `n` (7-bit groups, least significant first). -/
def encodeVarint (n : Nat) : List Nat :=
  encodeVarintAux 10 n

/-- `CodedInputStream::read_raw_bytes count`: exactly `count` bytes or a
codec error. -/
def readRawBytes : Nat → List Nat → Option (List Nat × List Nat)
  | 0, s => some ([], s)
  | _ + 1, [] => none
  | k + 1, b :: s =>
    match readRawBytes k s with
    | some (bs, rest) => some (b :: bs, rest)
    | none => none

/-! ### Round-trip lemmas for the varint codec -/

theorem readVarint64Aux_encodeVarintAux (e : Nat) :
    ∀ n fuel shift acc rest, 0 < e → n < 2 ^ (7 * e) → e ≤ fuel →
      acc + n * 2 ^ shift < 2 ^ 64 →
      readVarint64Aux fuel shift acc (encodeVarintAux e n ++ rest)
        = some (acc + n * 2 ^ shift, rest) := by
  induction e with
  | zero => intro n fuel shift acc rest h; omega
  | succ e ih =>
    intro n fuel shift acc rest _ hn hfuel hacc
    obtain ⟨fuel, rfl⟩ : ∃ f, fuel = f + 1 := ⟨fuel - 1, by omega⟩
    by_cases h128 : n < 128
    · have hm : n % 128 = n := Nat.mod_eq_of_lt h128
      have hm2 : n % 256 < 128 := by omega
      simp only [encodeVarintAux, if_pos h128, List.cons_append, List.nil_append,
        readVarint64Aux]
      rw [if_pos hm2, hm, Nat.mod_eq_of_lt hacc]
    · have hb : ¬ (n % 128 + 128) % 256 < 128 := by omega
      simp only [encodeVarintAux, if_neg h128, List.cons_append, readVarint64Aux]
      rw [if_neg hb]
      have hmod : (n % 128 + 128) % 128 = n % 128 := by omega
      have hdecomp : n % 128 + 128 * (n / 128) = n := Nat.mod_add_div n 128
      have hle : n % 128 * 2 ^ shift ≤ n * 2 ^ shift :=
        Nat.mul_le_mul_right _ (Nat.mod_le n 128)
      have hacc2 : acc + n % 128 * 2 ^ shift < 2 ^ 64 := by omega
      have he : 0 < e := by
        rcases Nat.eq_zero_or_pos e with he0 | he0
        · subst he0; simp at hn; omega
        · exact he0
      have hn2 : n / 128 < 2 ^ (7 * e) := by
        have : n < 2 ^ (7 * e) * 128 := by
          have : 7 * (e + 1) = 7 * e + 7 := by ring
          rw [this, pow_add] at hn
          simpa [mul_comm] using hn
        omega
      have hshift : 2 ^ (shift + 7) = 2 ^ shift * 128 := by rw [pow_add]; norm_num
      have hacc3 : acc + n % 128 * 2 ^ shift + n / 128 * 2 ^ (shift + 7)
          = acc + n * 2 ^ shift := by
        rw [hshift]
        calc acc + n % 128 * 2 ^ shift + n / 128 * (2 ^ shift * 128)
            = acc + (n % 128 + 128 * (n / 128)) * 2 ^ shift := by ring
          _ = acc + n * 2 ^ shift := by rw [hdecomp]
      rw [hmod, Nat.mod_eq_of_lt hacc2,
        ih (n / 128) fuel (shift + 7) (acc + n % 128 * 2 ^ shift) rest he hn2
          (by omega) (by rw [hacc3]; exact hacc)]
      rw [hacc3]

theorem readRawVarint64_encode (n : Nat) (hn : n < 2 ^ 64) (rest : List Nat) :
    readRawVarint64 (encodeVarint n ++ rest) = some (n, rest) := by
  have := readVarint64Aux_encodeVarintAux 10 n 10 0 0 rest (by omega)
    (by have : (2:Nat) ^ 64 ≤ 2 ^ 70 := by norm_num
        omega)
    (le_refl _) (by simpa using hn)
  simpa [readRawVarint64, encodeVarint] using this

theorem readRawVarint32_encode (n : Nat) (hn : n < 2 ^ 32) (rest : List Nat) :
    readRawVarint32 (encodeVarint n ++ rest) = some (n, rest) := by
  have h64 : n < 2 ^ 64 := by
    have : (2:Nat) ^ 32 ≤ 2 ^ 64 := by norm_num
    omega
  simp only [readRawVarint32, readRawVarint64_encode n h64 rest]
  rw [Nat.mod_eq_of_lt hn]

theorem readRawBytes_append (xs rest : List Nat) :
    readRawBytes xs.length (xs ++ rest) = some (xs, rest) := by
  induction xs with
  | nil => simp [readRawBytes]
  | cons b bs ih => simp [readRawBytes, ih]

/-! ## Data model

`Value` (from `results.rs`), column descriptors and the `ServerResponse`
fields the driver reads (`message`, `column_description`,
`has_affected_row_count` / `affected_row_count`), `ResultSet`, and the
connection state relevant to `execute`/`next` (`result_set`).

`FLOAT`/`DOUBLE` cells are kept as their raw little-endian bit patterns
(the source stores `f32`/`f64` with the same bits); `TEXT` cells keep the
validated UTF-8 bytes (the source stores the corresponding `String`). -/

/-- Two's-complement reinterpretation of a `w`-bit unsigned value (the
`as i8` / `as i16` / `as i32` / `as i64` casts and `transmute`). -/
def toSigned (w n : Nat) : Int :=
  if n < 2 ^ (w - 1) then (n : Int) else (n : Int) - 2 ^ w

/-- Unsigned `w`-bit representation of an integer (two's complement). -/
def toUnsigned (w : Nat) (v : Int) : Nat :=
  (v % ((2 : Int) ^ w)).toNat

/-- The spec's classification of the driver's error sites (the Rust
`DriverError` carries only a message string; each kind below corresponds
to a distinct `return Err(...)` site in the source). -/
inductive ErrKind where
  | config
  | transport
  | auth
  | protocol
  | server
  | misuse
  deriving DecidableEq

/-- Result of running a fallible driver operation: `ok`, an error value
returned to the caller (`Err(DriverError)`), or a process abort
(`panic` via `.unwrap()` / `.expect(...)`), which never reaches the
caller as a value. -/
inductive Outcome (α : Type) where
  | ok (a : α)
  | err (k : ErrKind) (msg : String)
  | fatal (msg : String)
  deriving DecidableEq

/-- Decoded timestamp components (the argument list of
`Utc.ymd(year, month, day).and_hms_nano(hours, minutes, seconds, nano)`;
the instant is interpreted in UTC). -/
structure Ts where
  year : Int
  month : Nat
  day : Nat
  hours : Nat
  minutes : Nat
  seconds : Nat
  nano : Nat
  deriving DecidableEq

/-- `results.rs` `Value`. -/
inductive Value where
  | Int8 (v : Int)
  | Uint8 (v : Nat)
  | Int16 (v : Int)
  | Uint16 (v : Nat)
  | Int32 (v : Int)
  | Uint32 (v : Nat)
  | Int64 (v : Int)
  | Uint64 (v : Nat)
  | Float (bits : Nat)
  | Double (bits : Nat)
  | Text (bytes : List Nat)
  | Binary (bytes : List Nat)
  | Timestamp (ts : Ts)
  deriving DecidableEq

/-- The column data types `next()` dispatches on. `OTHER` stands for every
remaining value of the generated `ColumnDataType` enum, i.e. the `_` arm
of the `match` in `next()`. -/
inductive ColumnDataType where
  | INT8
  | UINT8
  | INT16
  | UINT16
  | INT32
  | UINT32
  | FLOAT
  | DOUBLE
  | INT64
  | UINT64
  | TEXT
  | BINARY
  | TIMESTAMP
  | OTHER
  deriving DecidableEq

/-- The fields of a column descriptor that `execute`/`next` read. -/
structure ColumnDescription where
  field_type : ColumnDataType
  is_null : Bool
  deriving DecidableEq

/-- The fields of `ServerResponse` that the driver reads: the error
`message` entries (their `text`), the column descriptors, and the
affected-row-count pair. -/
structure ServerResponse where
  message : List String
  column_description : List ColumnDescription
  has_affected_row_count : Bool
  affected_row_count : Nat
  deriving DecidableEq

/-- `results.rs` `ResultSet`. -/
structure ResultSet where
  server_response : ServerResponse
  null_bit_mask_present : Bool
  null_bit_mask_byte_size : Nat
  end_of_row : Bool
  row_count : Nat
  current_row : Option (List (Option Value))
  deriving DecidableEq

/-- `ResultSet::new`. -/
def ResultSet.new (server_response : ServerResponse) : ResultSet :=
  { server_response := server_response
    null_bit_mask_present := false
    null_bit_mask_byte_size := 0
    end_of_row := true
    row_count := 0
    current_row := none }

/-- The part of `SiodbConn` state that `execute` reads and writes. -/
structure ConnState where
  result_set : Option ResultSet
  deriving DecidableEq

/-- Protocol messages written by the driver, at the protobuf abstraction
level (the serialized form is external, generated from the shared IDL). -/
inductive Msg where
  | command (request_id : Nat) (text : String)
  | beginSessionRequest (user_name : String)
  | clientAuthenticationRequest (signature : List Nat)
  deriving DecidableEq

/-- One frame written by `write_message`: varint tag, then the
length-prefixed message. -/
structure Frame where
  tag : Nat
  msg : Msg
  deriving DecidableEq

/-! ## Timestamp bit extraction (`next()`, TIMESTAMP arm)

Direct translations of the bit manipulations on the 4 date bytes
`date[0..3]` and 6 time bytes `time[0..5]`. -/

/-- `date[0] & 0b0000_0001`. -/
def tsHasTimePart (d0 : Nat) : Nat := d0 &&& 1

/-- `(date[0] & 0b0000_1110) >> 1` (computed for tracing only). -/
def tsDayOfWeek (d0 : Nat) : Nat := (d0 &&& 14) >>> 1

/-- `(((date[0] & 0b1111_0000) >> 4) + ((date[1] & 0b0000_0001) << 4)) + 1`. -/
def tsDayOfMonth (d0 d1 : Nat) : Nat :=
  ((d0 &&& 240) >>> 4) + ((d1 &&& 1) <<< 4) + 1

/-- `((date[1] & 0b0001_1110) >> 1) + 1`. -/
def tsMonth (d1 : Nat) : Nat := ((d1 &&& 30) >>> 1) + 1

/-- The `year_bytes` array built in `next()`. -/
def tsYearBytes (d1 d2 d3 : Nat) : List Nat :=
  [0,
   (d3 &&& 224) >>> 5,
   ((d2 &&& 224) >>> 5) + ((d3 &&& 31) <<< 3),
   ((d1 &&& 224) >>> 5) + ((d2 &&& 31) <<< 3)]

/-- `transmute::<[u8; 4], i32>(year_bytes).to_be()`: on the (little-endian)
target the transmute reads the array as `b0 + b1·2^8 + b2·2^16 + b3·2^24`
and `.to_be()` swaps the bytes, so the value is
`b3 + b2·2^8 + b1·2^16 + b0·2^24`, reinterpreted as `i32`. -/
def tsYear (d1 d2 d3 : Nat) : Int :=
  let bs := tsYearBytes d1 d2 d3
  toSigned 32
    (bs.getD 3 0 + bs.getD 2 0 * 256 + bs.getD 1 0 * 65536 + bs.getD 0 0 * 16777216)

/-- The `nano_bytes` array built in `next()`. -/
def tsNanoBytes (t0 t1 t2 t3 : Nat) : List Nat :=
  [(t3 &&& 126) >>> 1,
   ((t2 &&& 254) >>> 1) + ((t3 &&& 1) <<< 7),
   ((t1 &&& 254) >>> 1) + ((t2 &&& 1) <<< 7),
   ((t0 &&& 254) >>> 1) + ((t1 &&& 1) <<< 7)]

/-- `transmute::<[u8; 4], u32>(nano_bytes).to_be()` (byte swap as for
`tsYear`). -/
def tsNano (t0 t1 t2 t3 : Nat) : Nat :=
  let bs := tsNanoBytes t0 t1 t2 t3
  bs.getD 3 0 + bs.getD 2 0 * 256 + bs.getD 1 0 * 65536 + bs.getD 0 0 * 16777216

/-- `((time[3] & 0b1000_0000) >> 7) + ((time[4] & 0b0001_1111) << 1)`. -/
def tsSeconds (t3 t4 : Nat) : Nat :=
  ((t3 &&& 128) >>> 7) + ((t4 &&& 31) <<< 1)

/-- `((time[4] & 0b1110_0000) >> 5) + ((time[5] & 0b0000_0111) << 3)`. -/
def tsMinutes (t4 t5 : Nat) : Nat :=
  ((t4 &&& 224) >>> 5) + ((t5 &&& 7) <<< 3)

/-- `(time[5] & 0b1111_1000) >> 3`. -/
def tsHours (t5 : Nat) : Nat := (t5 &&& 248) >>> 3

/-! ## Calendar validity (chrono)

`Utc.ymd(...)` and `.and_hms_nano(...)` panic on invalid components.
`validYmd` mirrors chrono 0.4's `NaiveDate::from_ymd_opt` (proleptic
Gregorian calendar, years limited to `MIN_YEAR = -262144` ..
`MAX_YEAR = 262143`); `validHmsNano` mirrors
`NaiveTime::from_hms_nano_opt` (nanoseconds up to `1_999_999_999`, the
values at and above `10^9` representing leap seconds). -/

def isLeapYear (y : Int) : Bool :=
  (y % 4 == 0 && y % 100 != 0) || y % 400 == 0

def daysInMonth (y : Int) (m : Nat) : Nat :=
  if m = 2 then (if isLeapYear y then 29 else 28)
  else if m = 4 ∨ m = 6 ∨ m = 9 ∨ m = 11 then 30
  else 31

def validYmd (y : Int) (m d : Nat) : Bool :=
  -262144 ≤ y && y ≤ 262143 && 1 ≤ m && m ≤ 12 && 1 ≤ d && d ≤ daysInMonth y m

def validHmsNano (h mi s nano : Nat) : Bool :=
  h < 24 && mi < 60 && s < 60 && nano < 2000000000

/-! ## UTF-8 validity (`from_utf8(...).unwrap()` in the TEXT arm)

The RFC 3629 byte-sequence automaton that Rust's `str::from_utf8`
implements (rejecting overlong forms, surrogates, and code points above
U+10FFFF). -/

/-- A UTF-8 continuation byte, `0x80..=0xBF`. -/
def isCont (b : Nat) : Bool := 128 ≤ b && b < 192

/-- Fuel-indexed validity scan; the fuel only needs to be at least the
list length since every step consumes at least one byte. -/
def utf8ValidAux : Nat → List Nat → Bool
  | _, [] => true
  | 0, _ :: _ => false
  | fuel + 1, b :: rest =>
    if b < 128 then utf8ValidAux fuel rest
    else if 194 ≤ b ∧ b ≤ 223 then
      match rest with
      | c1 :: r => isCont c1 && utf8ValidAux fuel r
      | [] => false
    else if b = 224 then
      match rest with
      | c1 :: c2 :: r => (160 ≤ c1 && c1 < 192) && isCont c2 && utf8ValidAux fuel r
      | _ => false
    else if 225 ≤ b ∧ b ≤ 236 then
      match rest with
      | c1 :: c2 :: r => isCont c1 && isCont c2 && utf8ValidAux fuel r
      | _ => false
    else if b = 237 then
      match rest with
      | c1 :: c2 :: r => (128 ≤ c1 && c1 < 160) && isCont c2 && utf8ValidAux fuel r
      | _ => false
    else if 238 ≤ b ∧ b ≤ 239 then
      match rest with
      | c1 :: c2 :: r => isCont c1 && isCont c2 && utf8ValidAux fuel r
      | _ => false
    else if b = 240 then
      match rest with
      | c1 :: c2 :: c3 :: r =>
        (144 ≤ c1 && c1 < 192) && isCont c2 && isCont c3 && utf8ValidAux fuel r
      | _ => false
    else if 241 ≤ b ∧ b ≤ 243 then
      match rest with
      | c1 :: c2 :: c3 :: r => isCont c1 && isCont c2 && isCont c3 && utf8ValidAux fuel r
      | _ => false
    else if b = 244 then
      match rest with
      | c1 :: c2 :: c3 :: r =>
        (128 ≤ c1 && c1 < 144) && isCont c2 && isCont c3 && utf8ValidAux fuel r
      | _ => false
    else false

def utf8Valid (bs : List Nat) : Bool := utf8ValidAux bs.length bs

/-! ## Per-column cell decoding (`next()`, the `match column.field_type`) -/

/-- Little-endian byte list to `Nat` (`LittleEndian::read_u16`,
`read_float`, `read_double` bit patterns). -/
def leNat (bs : List Nat) : Nat := bs.foldr (fun b acc => b + acc * 256) 0

/-- TIMESTAMP arm of the column `match` in `next()`: 4 date bytes,
optionally 6 time bytes; chrono's `Utc.ymd(..).and_hms_nano(..)` panics
(`Outcome.fatal`) on invalid components. -/
def decodeTimestampCell (s : List Nat) : Outcome (Value × List Nat) :=
  match readRawBytes 4 s with
  | none => .fatal "Codec error"
  | some (date, s1) =>
    let d0 := date.getD 0 0
    let d1 := date.getD 1 0
    let d2 := date.getD 2 0
    let d3 := date.getD 3 0
    let has_time_part := tsHasTimePart d0
    let _day_of_week := tsDayOfWeek d0
    let day_of_month := tsDayOfMonth d0 d1
    let month := tsMonth d1
    let year := tsYear d1 d2 d3
    if has_time_part = 1 then
      match readRawBytes 6 s1 with
      | none => .fatal "Codec error"
      | some (time, s2) =>
        let t0 := time.getD 0 0
        let t1 := time.getD 1 0
        let t2 := time.getD 2 0
        let t3 := time.getD 3 0
        let t4 := time.getD 4 0
        let t5 := time.getD 5 0
        let nano := tsNano t0 t1 t2 t3
        let seconds := tsSeconds t3 t4
        let minutes := tsMinutes t4 t5
        let hours := tsHours t5
        if validYmd year month day_of_month && validHmsNano hours minutes seconds nano then
          .ok (.Timestamp ⟨year, month, day_of_month, hours, minutes, seconds, nano⟩, s2)
        else .fatal "invalid date"
    else
      if validYmd year month day_of_month then
        .ok (.Timestamp ⟨year, month, day_of_month, 0, 0, 0, 0⟩, s1)
      else .fatal "invalid date"

/-- One arm of the `match column.field_type` in `next()`. The `_` arm
(`OTHER`) is the only `return Err(...)` inside the row decode loop. -/
def decodeCell (t : ColumnDataType) (s : List Nat) : Outcome (Value × List Nat) :=
  match t with
  | .INT8 =>
    match readRawBytes 1 s with
    | some (bs, s1) => .ok (.Int8 (toSigned 8 (bs.getD 0 0)), s1)
    | none => .fatal "Codec error"
  | .UINT8 =>
    match readRawBytes 1 s with
    | some (bs, s1) => .ok (.Uint8 (bs.getD 0 0), s1)
    | none => .fatal "Codec error"
  | .INT16 =>
    match readRawBytes 2 s with
    | some (bs, s1) => .ok (.Int16 (toSigned 16 (leNat bs)), s1)
    | none => .fatal "Codec error"
  | .UINT16 =>
    match readRawBytes 2 s with
    | some (bs, s1) => .ok (.Uint16 (leNat bs), s1)
    | none => .fatal "Codec error"
  | .INT32 =>
    match readRawVarint32 s with
    | some (v, s1) => .ok (.Int32 (toSigned 32 v), s1)
    | none => .fatal "Codec error"
  | .UINT32 =>
    match readRawVarint32 s with
    | some (v, s1) => .ok (.Uint32 v, s1)
    | none => .fatal "Codec error"
  | .FLOAT =>
    match readRawBytes 4 s with
    | some (bs, s1) => .ok (.Float (leNat bs), s1)
    | none => .fatal "Codec error"
  | .DOUBLE =>
    match readRawBytes 8 s with
    | some (bs, s1) => .ok (.Double (leNat bs), s1)
    | none => .fatal "Codec error"
  | .INT64 =>
    match readRawVarint64 s with
    | some (v, s1) => .ok (.Int64 (toSigned 64 v), s1)
    | none => .fatal "Codec error"
  | .UINT64 =>
    match readRawVarint64 s with
    | some (v, s1) => .ok (.Uint64 v, s1)
    | none => .fatal "Codec error"
  | .TEXT =>
    match readRawVarint32 s with
    | some (len, s1) =>
      match readRawBytes len s1 with
      | some (bs, s2) =>
        if utf8Valid bs then .ok (.Text bs, s2) else .fatal "invalid utf8"
      | none => .fatal "Codec error"
    | none => .fatal "Codec error"
  | .BINARY =>
    match readRawVarint32 s with
    | some (len, s1) =>
      match readRawBytes len s1 with
      | some (bs, s2) => .ok (.Binary bs, s2)
      | none => .fatal "Codec error"
    | none => .fatal "Codec error"
  | .TIMESTAMP => decodeTimestampCell s
  | .OTHER => .err .protocol "read_data | Unknow data type."

/-- The `is_null` computation in the row decode loop: when the bitmask is
present, `(bit_mask[idx / 8] & (1 << (idx % 8))) >> (idx % 8)`; otherwise
the variable keeps its initial value `0`. -/
def cellIsNull (present : Bool) (bm : List Nat) (idx : Nat) : Nat :=
  if present then (bm.getD (idx / 8) 0 &&& (1 <<< (idx % 8))) >>> (idx % 8) else 0

/-- The row decode loop of `next()` (`for (idx, column) in ...`): `idx` is
the enumeration index, `present` is `null_bit_mask_present`, `bm` the
bitmask bytes read before the loop. A cell whose bit is set is pushed as
`none` without touching the stream. -/
def decodeRowCells (cols : List ColumnDescription) (idx : Nat) (present : Bool)
    (bm : List Nat) (s : List Nat) : Outcome (List (Option Value) × List Nat) :=
  match cols with
  | [] => .ok ([], s)
  | col :: rest =>
    if cellIsNull present bm idx = 1 then
      match decodeRowCells rest (idx + 1) present bm s with
      | .ok (row, s1) => .ok (none :: row, s1)
      | .err k m => .err k m
      | .fatal m => .fatal m
    else
      match decodeCell col.field_type s with
      | .ok (v, s1) =>
        match decodeRowCells rest (idx + 1) present bm s1 with
        | .ok (row, s2) => .ok (some v :: row, s2)
        | .err k m => .err k m
        | .fatal m => .fatal m
      | .err k m => .err k m
      | .fatal m => .fatal m

/-- The tail of `next()` after the row-length varint has been read and
found non-zero: `row_count += 1` (done in the source right after the
zero test, before the bitmask read — on every path below the returned
state carries the increment), then the row decode loop, then
`current_row = Some(row)` and `Ok(true)`. -/
def finishRow (rs : ResultSet) (bm : List Nat) (payload : List Nat) :
    Outcome Bool × ResultSet × List Nat :=
  let rs := { rs with row_count := rs.row_count + 1 }
  match decodeRowCells rs.server_response.column_description 0
      rs.null_bit_mask_present bm payload with
  | .ok (row, s1) => (.ok true, { rs with current_row := some row }, s1)
  | .err k m => (.err k m, rs, payload)
  | .fatal m => (.fatal m, rs, payload)

/-- `SiodbConn::next`. The state it reads and mutates is the `ResultSet`
(the source accesses it through `self.result_set.as_mut().unwrap()`);
the byte stream is threaded explicitly. -/
def next (rs : ResultSet) (s : List Nat) : Outcome Bool × ResultSet × List Nat :=
  if rs.end_of_row then (.ok false, rs, s)
  else
    match readRawVarint32 s with
    | none => (.fatal "Codec error", rs, s)
    | some (row_length, s1) =>
      if row_length = 0 then (.ok false, { rs with end_of_row := true }, s1)
      else
        match (if rs.null_bit_mask_present
               then readRawBytes rs.null_bit_mask_byte_size s1
               else some ([], s1)) with
        | none => (.fatal "Codec error", { rs with row_count := rs.row_count + 1 }, s1)
        | some (bm, s2) => finishRow rs bm s2

/-- `SiodbConn::execute`. `resp` is the `ServerResponse` the server sends
back (read via `read_message::<ServerResponse>(2)`); the returned
`List Frame` is what the call wrote to the wire. -/
def execute (st : ConnState) (sql : String) (resp : ServerResponse) :
    Outcome Unit × ConnState × List Frame :=
  if (st.result_set.map fun rs => !rs.end_of_row).getD false then
    (.err .misuse "execute | There is still data in the buffer.", st, [])
  else
    let frames := [Frame.mk 1 (.command 1 sql)]
    let rs := ResultSet.new resp
    if resp.message.length > 0 then
      let error_messages := String.join resp.message
      (.err .server ("execute | Error message(s) " ++ error_messages ++ "."),
       { st with result_set := some rs }, frames)
    else
      let column_count := resp.column_description.length
      if column_count > 0 then
        let rs := { rs with end_of_row := false }
        let rs :=
          if resp.column_description.any (·.is_null) then
            { rs with
              null_bit_mask_present := true
              null_bit_mask_byte_size :=
                if column_count % 8 = 0 then column_count / 8 else column_count / 8 + 1 }
          else rs
        (.ok (), { st with result_set := some rs }, frames)
      else
        (.ok (), { st with result_set := some rs }, frames)

/-- Iterated `next()` calls: feed each stream in turn to the evolving
result-set state and collect the outcomes. -/
def nextCalls (rs : ResultSet) : List (List Nat) → List (Outcome Bool)
  | [] => []
  | s :: rest =>
    let r := next rs s
    r.1 :: nextCalls r.2.1 rest

/-! ## Framing codec (`write_message` / `read_message`), byte level

For the framing round-trip the protobuf message is represented by its
serialized bytes (`write_to_with_cached_sizes` output /
`read_message` input); parsing back is the identity on those bytes. -/

/-- `SiodbConn::write_message`: varint tag, varint body size, body. -/
def writeMessage (message_type : Nat) (body : List Nat) : List Nat :=
  encodeVarint message_type ++ encodeVarint body.length ++ body

/-- `SiodbConn::read_message`: read a varint tag; on mismatch return the
`protocol` error without reading further; otherwise read the varint
length and that many body bytes.  The second component is the stream
position afterwards. -/
def readMessage (message_type : Nat) (s : List Nat) :
    Outcome (List Nat) × List Nat :=
  match readRawVarint32 s with
  | none => (.fatal "read_message | Codec error", s)
  | some (message_type_received, s1) =>
    if message_type ≠ message_type_received then
      (.err .protocol
        ("read_message | wrong message type received from Siodb: "
          ++ toString message_type_received ++ ". Expected: "
          ++ toString message_type ++ "."), s1)
    else
      match readRawVarint32 s1 with
      | none => (.fatal "read_message | Codec error", s1)
      | some (len, s2) =>
        match readRawBytes len s2 with
        | none => (.fatal "read_message | Codec error", s2)
        | some (body, s3) => (.ok body, s3)

/-! ## Authentication handshake (`SiodbConn::authenticate`)

The BeginSession / ClientAuthentication responses and the results of the
external filesystem and OpenSSL calls are inputs; the function models the
control flow of `authenticate`.  Every external failure is consumed by an
`.expect(...)`, i.e. a panic (`Outcome.fatal`), not a returned error. -/

structure BeginSessionResponse where
  session_started : Bool
  challenge : List Nat
  deriving DecidableEq

structure ClientAuthenticationResponse where
  authenticated : Bool
  deriving DecidableEq

/-- The environment `authenticate` interacts with: the two server
responses and the outcomes of `fs::read_to_string`,
`Rsa::private_key_from_pem`, `PKey::from_rsa`, `Signer::new` and
`sign_oneshot_to_vec` (opaque handles are numbered). -/
structure AuthEnv where
  begin_session_response : BeginSessionResponse
  read_key_file : Except String String
  private_key_from_pem : String → Except String Nat
  pkey_from_rsa : Nat → Except String Nat
  signer_new : Nat → Except String Nat
  sign_oneshot_to_vec : Nat → List Nat → Except String (List Nat)
  client_authentication_response : ClientAuthenticationResponse

def authenticate (user : String) (env : AuthEnv) : Outcome Unit × List Frame :=
  let frames1 := [Frame.mk 5 (.beginSessionRequest user)]
  if !env.begin_session_response.session_started then
    (.err .auth "Siodb session not started.", frames1)
  else
    match env.read_key_file with
    | .error _ => (.fatal "Error reading private key", frames1)
    | .ok contents =>
      match env.private_key_from_pem contents with
      | .error _ => (.fatal "Error loading private key", frames1)
      | .ok rsa =>
        match env.pkey_from_rsa rsa with
        | .error _ => (.fatal "Error loading private RSA key", frames1)
        | .ok keypair =>
          match env.signer_new keypair with
          | .error _ => (.fatal "Error creating signer", frames1)
          | .ok signer =>
            match env.sign_oneshot_to_vec signer
                env.begin_session_response.challenge with
            | .error _ => (.fatal "Error signing challenge", frames1)
            | .ok signature =>
              let frames2 := frames1 ++ [Frame.mk 7 (.clientAuthenticationRequest signature)]
              if !env.client_authentication_response.authenticated then
                (.err .auth "Siodb session not started.", frames2)
              else
                (.ok (), frames2)

/-! ## Boundary-value encoders (for the integer round-trip property)

The standard wire encodings of §4.6: raw bytes for the 8/16-bit types
(two's complement, little-endian) and unsigned protobuf varints of the
two's-complement representation for the 32/64-bit types (no zig-zag). -/

def encInt8 (v : Int) : List Nat := [toUnsigned 8 v]

def encUint8 (v : Nat) : List Nat := [v % 256]

def encInt16 (v : Int) : List Nat :=
  [toUnsigned 16 v % 256, toUnsigned 16 v / 256]

def encUint16 (v : Nat) : List Nat := [v % 256, v % 65536 / 256]

def encInt32 (v : Int) : List Nat := encodeVarint (toUnsigned 32 v)

def encUint32 (v : Nat) : List Nat := encodeVarint (v % 2 ^ 32)

def encInt64 (v : Int) : List Nat := encodeVarint (toUnsigned 64 v)

def encUint64 (v : Nat) : List Nat := encodeVarint (v % 2 ^ 64)

/-! ## Helper lemmas -/

theorem byteLand224 : ∀ x < 256, (x &&& 224) >>> 5 = x / 32 := by decide

theorem byteLand240 : ∀ x < 256, (x &&& 240) >>> 4 = x / 16 := by decide

theorem byteLand30 : ∀ x < 256, (x &&& 30) >>> 1 = x / 2 % 16 := by decide

theorem byteLand14 : ∀ x < 256, (x &&& 14) >>> 1 = x / 2 % 8 := by decide

theorem byteLand1 : ∀ x < 256, x &&& 1 = x % 2 := by decide

theorem byteLand1Shl4 : ∀ x < 256, (x &&& 1) <<< 4 = x % 2 * 16 := by decide

theorem byteLand1Shl7 : ∀ x < 256, (x &&& 1) <<< 7 = x % 2 * 128 := by decide

theorem byteLand31 : ∀ x < 256, x &&& 31 = x % 32 := by decide

theorem byteLand31Shl3 : ∀ x < 256, (x &&& 31) <<< 3 = x % 32 * 8 := by decide

theorem byteLand31Shl1 : ∀ x < 256, (x &&& 31) <<< 1 = x % 32 * 2 := by decide

theorem byteLand254 : ∀ x < 256, (x &&& 254) >>> 1 = x / 2 := by decide

theorem byteLand126 : ∀ x < 256, (x &&& 126) >>> 1 = x % 128 / 2 := by decide

theorem byteLand128 : ∀ x < 256, (x &&& 128) >>> 7 = x / 128 := by decide

theorem byteLand7Shl3 : ∀ x < 256, (x &&& 7) <<< 3 = x % 8 * 8 := by decide

theorem byteLand248 : ∀ x < 256, (x &&& 248) >>> 3 = x / 8 := by decide

theorem byteMaskBit :
    ∀ x < 256, ∀ k < 8,
      (x &&& (1 <<< k)) >>> k = if x.testBit k then 1 else 0 := by decide

theorem getD_lt_256 (bm : List Nat) (h : ∀ b ∈ bm, b < 256) :
    ∀ j, bm.getD j 0 < 256 := by
  induction bm with
  | nil => intro j; simp [List.getD]
  | cons b bs ih =>
    intro j
    cases j with
    | zero => simpa using h b (by simp)
    | succ j => simpa using ih (fun x hx => h x (by simp [hx])) j

/-- Errors surfacing from the row decode loop all come from the
unknown-data-type arm, i.e. are of kind `protocol`. -/
theorem decodeTimestampCell_ne_err (s : List Nat) (k : ErrKind) (m : String) :
    decodeTimestampCell s ≠ .err k m := by
  unfold decodeTimestampCell
  rcases readRawBytes 4 s with - | ⟨date, s1⟩
  · simp
  · dsimp only
    split
    · rcases readRawBytes 6 s1 with - | ⟨time, s2⟩
      · simp
      · dsimp only
        split <;> simp
    · split <;> simp

theorem decodeCell_err (t : ColumnDataType) (s : List Nat) (k : ErrKind) (m : String)
    (h : decodeCell t s = .err k m) : k = .protocol := by
  cases t <;> rw [decodeCell] at h
  case TIMESTAMP => exact absurd h (decodeTimestampCell_ne_err s k m)
  case OTHER => exact (Outcome.err.inj h).1.symm
  all_goals
    repeat' split at h
  all_goals simp_all

theorem decodeRowCells_err (cols : List ColumnDescription) :
    ∀ idx present bm s k m,
      decodeRowCells cols idx present bm s = .err k m → k = .protocol := by
  induction cols with
  | nil => intro idx present bm s k m h; simp [decodeRowCells] at h
  | cons col rest ih =>
    intro idx present bm s k m h
    rw [decodeRowCells] at h
    by_cases hnull : cellIsNull present bm idx = 1
    · rw [if_pos hnull] at h
      rcases hrec : decodeRowCells rest (idx + 1) present bm s with ⟨row, s1⟩ | ⟨k2, m2⟩ | m2 <;>
        rw [hrec] at h <;> simp only [] at h
      · exact absurd h (by simp)
      · obtain ⟨h1, -⟩ := Outcome.err.inj h
        exact h1 ▸ ih _ _ _ _ _ _ hrec
      · exact absurd h (by simp)
    · rw [if_neg hnull] at h
      rcases hcell : decodeCell col.field_type s with ⟨v, s1⟩ | ⟨k2, m2⟩ | m2 <;>
        rw [hcell] at h <;> simp only [] at h
      · rcases hrec : decodeRowCells rest (idx + 1) present bm s1 with ⟨row, s2⟩ | ⟨k3, m3⟩ | m3 <;>
          rw [hrec] at h <;> simp only [] at h
        · exact absurd h (by simp)
        · obtain ⟨h1, -⟩ := Outcome.err.inj h
          exact h1 ▸ ih _ _ _ _ _ _ hrec
        · exact absurd h (by simp)
      · obtain ⟨h1, -⟩ := Outcome.err.inj h
        exact h1 ▸ decodeCell_err _ _ _ _ hcell
      · exact absurd h (by simp)

theorem finishRow_err (rs : ResultSet) (bm payload : List Nat) (k : ErrKind)
    (m : String) (rs2 : ResultSet) (sfin : List Nat)
    (h : finishRow rs bm payload = (.err k m, rs2, sfin)) :
    k = .protocol ∧ rs2 = { rs with row_count := rs.row_count + 1 } := by
  unfold finishRow at h
  dsimp only at h
  rcases hrec : decodeRowCells rs.server_response.column_description 0
      rs.null_bit_mask_present bm payload with ⟨row, s1⟩ | ⟨k2, m2⟩ | m2 <;>
    rw [hrec] at h <;> simp only [Prod.mk.injEq] at h
  · exact absurd h.1 (by simp)
  · obtain ⟨h1, h2, -⟩ := h
    obtain ⟨hk, -⟩ := Outcome.err.inj h1.symm
    exact ⟨hk ▸ decodeRowCells_err _ _ _ _ _ _ _ hrec, h2.symm⟩
  · exact absurd h.1 (by simp)

/-- The row returned by the decode loop is NULL at position `i` iff bit
`(idx + i) mod 8` of bitmask byte `(idx + i) / 8` is set. -/
theorem decodeRowCells_null_iff (cols : List ColumnDescription) :
    ∀ idx bm s row sfin, (∀ b ∈ bm, b < 256) →
      decodeRowCells cols idx true bm s = .ok (row, sfin) →
      ∀ i, i < cols.length →
        (row.get? i = some none
          ↔ Nat.testBit (bm.getD ((idx + i) / 8) 0) ((idx + i) % 8) = true) := by
  induction cols with
  | nil => intro idx bm s row sfin hb hdec i hi; simp at hi
  | cons col rest ih =>
    intro idx bm s row sfin hb hdec i hi
    have hbyte : bm.getD (idx / 8) 0 < 256 := getD_lt_256 bm hb _
    have hbit := byteMaskBit _ hbyte (idx % 8) (Nat.mod_lt _ (by norm_num))
    rw [decodeRowCells] at hdec
    by_cases htb : Nat.testBit (bm.getD (idx / 8) 0) (idx % 8) = true
    · rw [if_pos (by rw [cellIsNull, if_pos rfl, hbit, if_pos htb])] at hdec
      rcases hrec : decodeRowCells rest (idx + 1) true bm s with ⟨row2, s2⟩ | ⟨k2, m2⟩ | m2 <;>
        rw [hrec] at hdec <;> simp only [] at hdec
      · obtain ⟨h1, h2⟩ := Prod.mk.injEq .. ▸ Outcome.ok.inj hdec
        subst h1 h2
        cases i with
        | zero => simpa using htb
        | succ j =>
          have harith : idx + (j + 1) = idx + 1 + j := by omega
          simpa [harith] using ih (idx + 1) bm s row2 s2 hb hrec j (by simpa using hi)
      · exact absurd hdec (by simp)
      · exact absurd hdec (by simp)
    · rw [if_neg (by rw [cellIsNull, if_pos rfl, hbit, if_neg htb]; simp)] at hdec
      rcases hcell : decodeCell col.field_type s with ⟨v, s2⟩ | ⟨k2, m2⟩ | m2 <;>
        rw [hcell] at hdec <;> simp only [] at hdec
      · rcases hrec : decodeRowCells rest (idx + 1) true bm s2 with ⟨row2, s3⟩ | ⟨k3, m3⟩ | m3 <;>
          rw [hrec] at hdec <;> simp only [] at hdec
        · obtain ⟨h1, h2⟩ := Prod.mk.injEq .. ▸ Outcome.ok.inj hdec
          subst h1 h2
          cases i with
          | zero => simpa using htb
          | succ j =>
            have harith : idx + (j + 1) = idx + 1 + j := by omega
            simpa [harith] using ih (idx + 1) bm s2 row2 s3 hb hrec j (by simpa using hi)
        · exact absurd hdec (by simp)
        · exact absurd hdec (by simp)
      · exact absurd hdec (by simp)
      · exact absurd hdec (by simp)

/-- Once `end_of_row` is set, every further `next()` call returns
"no more rows" and leaves the state unchanged. -/
theorem nextCalls_drained (rs : ResultSet) (h : rs.end_of_row = true) :
    ∀ streams, ∀ o ∈ nextCalls rs streams, o = .ok false := by
  intro streams
  induction streams with
  | nil => intro o ho; simp [nextCalls] at ho
  | cons s rest ih =>
    intro o ho
    have hnext : next rs s = (.ok false, rs, s) := by simp [next, h]
    simp only [nextCalls, hnext] at ho
    rcases List.mem_cons.mp ho with h1 | h1
    · exact h1
    · exact ih o h1

/-- `next()` on a streaming result set with the null bitmap present:
after the non-zero row-length varint it consumes exactly
`null_bit_mask_byte_size` bitmap bytes and hands the remainder to the
row decode loop. -/
theorem next_reads_bitmap (rs : ResultSet) (hE : rs.end_of_row = false)
    (hp : rs.null_bit_mask_present = true) (L : Nat) (bm payload : List Nat)
    (hL : L ≠ 0) (hL32 : L < 2 ^ 32) (hbm : bm.length = rs.null_bit_mask_byte_size) :
    next rs (encodeVarint L ++ (bm ++ payload)) = finishRow rs bm payload := by
  have h1 := readRawVarint32_encode L hL32 (bm ++ payload)
  have h2 : readRawBytes rs.null_bit_mask_byte_size (bm ++ payload) = some (bm, payload) := by
    rw [← hbm]; exact readRawBytes_append bm payload
  simp [next, hE, hp, h1, h2, hL]

/-- `next()` on a streaming result set with no null bitmap: no bytes are
read between the row-length varint and the column payload. -/
theorem next_no_bitmap (rs : ResultSet) (hE : rs.end_of_row = false)
    (hp : rs.null_bit_mask_present = false) (L : Nat) (payload : List Nat)
    (hL : L ≠ 0) (hL32 : L < 2 ^ 32) :
    next rs (encodeVarint L ++ payload) = finishRow rs [] payload := by
  have h1 := readRawVarint32_encode L hL32 payload
  simp [next, hE, hp, h1, hL]

/-- Closed form of the year assembly: the three-bit chunk `d1` bits 5..7
is least significant, then all of `d2`, then all of `d3`; the 32-bit
signed reinterpretation never sees a set sign bit (the value is below
`2^19`), so the result is the plain natural number. -/
theorem tsYear_eq (d1 d2 d3 : Nat) (h1 : d1 < 256) (h2 : d2 < 256) (h3 : d3 < 256) :
    tsYear d1 d2 d3 = ((d1 / 32 + 8 * d2 + 2048 * d3 : Nat) : Int) := by
  have e1 := byteLand224 d1 h1
  have e2 := byteLand224 d2 h2
  have e3 := byteLand224 d3 h3
  have f2 := byteLand31Shl3 d2 h2
  have f3 := byteLand31Shl3 d3 h3
  unfold tsYear tsYearBytes toSigned
  simp only [List.getD_cons_zero, List.getD_cons_succ]
  rw [e1, e2, e3, f2, f3, if_pos (by omega)]
  norm_cast
  omega

/-- Closed form of the nanoseconds assembly: the 30 bits `t0` bit 1
through `t3` bit 6, in little-endian byte order, shifted right by one. -/
theorem tsNano_eq (t0 t1 t2 t3 : Nat)
    (g0 : t0 < 256) (g1 : t1 < 256) (g2 : t2 < 256) (g3 : t3 < 256) :
    tsNano t0 t1 t2 t3 = (t0 + 256 * t1 + 65536 * t2 + 16777216 * (t3 % 128)) / 2 := by
  have a0 := byteLand254 t0 g0
  have a1 := byteLand254 t1 g1
  have a2 := byteLand254 t2 g2
  have b1 := byteLand1Shl7 t1 g1
  have b2 := byteLand1Shl7 t2 g2
  have b3 := byteLand1Shl7 t3 g3
  have c3 := byteLand126 t3 g3
  unfold tsNano tsNanoBytes
  simp only [List.getD_cons_zero, List.getD_cons_succ]
  rw [a0, a1, a2, b1, b2, b3, c3]
  omega

theorem tsNano_lt (t0 t1 t2 t3 : Nat)
    (g0 : t0 < 256) (g1 : t1 < 256) (g2 : t2 < 256) (g3 : t3 < 256) :
    tsNano t0 t1 t2 t3 < 2 ^ 30 := by
  rw [tsNano_eq t0 t1 t2 t3 g0 g1 g2 g3]
  omega

/-! ## Claim theorems -/

/-- C4: the timestamp decoder derives `has_time_part` from `d0` bit 0,
`day_of_week` from `d0` bits 1..3, day of month from `d0` bits 4..7
concatenated with `d1` bit 0 (as bit 4) plus 1, month from `d1` bits 1..4
plus 1, and the year as a 19-bit field assembled from `d1` bits 5..7
(least significant), `d2` bits 0..7, and `d3` bits 0..7 (most
significant) — the source builds the field bytes and byte-swaps them with
`.to_be()` before the signed 32-bit reinterpretation, which never
produces a negative value since only bits 0..18 are populated.  When
`has_time_part` is 0 the decoder reads no bytes beyond the 4 date bytes
and the time components are 00:00:00.000000000 (interpreted as UTC). -/
theorem timestampDateFields (d0 d1 d2 d3 : Nat) (rest : List Nat)
    (h0 : d0 < 256) (h1 : d1 < 256) (h2 : d2 < 256) (h3 : d3 < 256) :
    tsHasTimePart d0 = d0 % 2
    ∧ tsDayOfWeek d0 = d0 / 2 % 8
    ∧ tsDayOfMonth d0 d1 = d0 / 16 + d1 % 2 * 16 + 1
    ∧ tsMonth d1 = d1 / 2 % 16 + 1
    ∧ tsYear d1 d2 d3 = ((d1 / 32 + 8 * d2 + 2048 * d3 : Nat) : Int)
    ∧ (d0 % 2 = 0 →
        (validYmd (tsYear d1 d2 d3) (tsMonth d1) (tsDayOfMonth d0 d1) = true →
          decodeTimestampCell (d0 :: d1 :: d2 :: d3 :: rest)
            = .ok (.Timestamp ⟨tsYear d1 d2 d3, tsMonth d1, tsDayOfMonth d0 d1, 0, 0, 0, 0⟩,
                rest))
        ∧ (validYmd (tsYear d1 d2 d3) (tsMonth d1) (tsDayOfMonth d0 d1) = false →
          decodeTimestampCell (d0 :: d1 :: d2 :: d3 :: rest) = .fatal "invalid date")) := by
  refine ⟨byteLand1 d0 h0, byteLand14 d0 h0, ?_, ?_, tsYear_eq d1 d2 d3 h1 h2 h3, ?_⟩
  · unfold tsDayOfMonth
    rw [byteLand240 d0 h0, byteLand1Shl4 d1 h1]
  · unfold tsMonth
    rw [byteLand30 d1 h1]
  · intro hbit0
    have hread : readRawBytes 4 (d0 :: d1 :: d2 :: d3 :: rest) = some ([d0, d1, d2, d3], rest) :=
      rfl
    have hht : tsHasTimePart d0 = 0 := by
      unfold tsHasTimePart; rw [byteLand1 d0 h0, hbit0]
    constructor
    · intro hvalid
      simp [decodeTimestampCell, hread, hht, hvalid]
    · intro hinvalid
      simp [decodeTimestampCell, hread, hht, hinvalid]

/-- C4, witness: the date-only encoding of 2000-01-01 decodes to that
date with a zero time part, consuming exactly the 4 date bytes. -/
theorem timestampDateFieldsWitness :
    decodeTimestampCell [0, 0, 250, 0, 9] = .ok (.Timestamp ⟨2000, 1, 1, 0, 0, 0, 0⟩, [9]) := by
  have h := ((timestampDateFields 0 0 250 0 [9] (by decide) (by decide) (by decide)
      (by decide)).2.2.2.2.2 rfl).1 (by decide)
  exact h.trans (by decide)

/-- C5 (amended): when `has_time_part` is 1 the decoder reads 6 further
bytes and derives the nanoseconds as a **30-bit** field packed from `t0`
bit 1 through `t3` bit 6 (little-endian byte order, shifted by one bit),
yielding a value in `0..2^30-1`; seconds as `t3` bit 7 concatenated with
`t4` bits 0..4; minutes as `t4` bits 5..7 concatenated with `t5` bits
0..2; hours as `t5` bits 3..7.  (The successful decodings are exactly
those accepted by chrono: hours 0..23, minutes 0..59, seconds 0..59,
nanoseconds below 2·10^9.) -/
theorem timestampTimeFields (d0 d1 d2 d3 t0 t1 t2 t3 t4 t5 : Nat) (rest : List Nat)
    (h0 : d0 < 256) (_h1 : d1 < 256) (_h2 : d2 < 256) (_h3 : d3 < 256)
    (g0 : t0 < 256) (g1 : t1 < 256) (g2 : t2 < 256) (g3 : t3 < 256)
    (g4 : t4 < 256) (g5 : t5 < 256) :
    tsNano t0 t1 t2 t3 = (t0 + 256 * t1 + 65536 * t2 + 16777216 * (t3 % 128)) / 2
    ∧ tsNano t0 t1 t2 t3 < 2 ^ 30
    ∧ tsSeconds t3 t4 = t3 / 128 + t4 % 32 * 2
    ∧ tsMinutes t4 t5 = t4 / 32 + t5 % 8 * 8
    ∧ tsHours t5 = t5 / 8
    ∧ (d0 % 2 = 1 →
        validYmd (tsYear d1 d2 d3) (tsMonth d1) (tsDayOfMonth d0 d1) = true →
        validHmsNano (tsHours t5) (tsMinutes t4 t5) (tsSeconds t3 t4)
            (tsNano t0 t1 t2 t3) = true →
        decodeTimestampCell
            (d0 :: d1 :: d2 :: d3 :: t0 :: t1 :: t2 :: t3 :: t4 :: t5 :: rest)
          = .ok (.Timestamp ⟨tsYear d1 d2 d3, tsMonth d1, tsDayOfMonth d0 d1,
              tsHours t5, tsMinutes t4 t5, tsSeconds t3 t4, tsNano t0 t1 t2 t3⟩, rest)) := by
  refine ⟨tsNano_eq t0 t1 t2 t3 g0 g1 g2 g3, tsNano_lt t0 t1 t2 t3 g0 g1 g2 g3, ?_, ?_, ?_, ?_⟩
  · unfold tsSeconds
    rw [byteLand128 t3 g3, byteLand31Shl1 t4 g4]
  · unfold tsMinutes
    rw [byteLand224 t4 g4, byteLand7Shl3 t5 g5]
  · unfold tsHours
    rw [byteLand248 t5 g5]
  · intro hbit0 hvalidD hvalidT
    have hread : readRawBytes 4 (d0 :: d1 :: d2 :: d3 :: t0 :: t1 :: t2 :: t3 :: t4 :: t5 :: rest)
        = some ([d0, d1, d2, d3], t0 :: t1 :: t2 :: t3 :: t4 :: t5 :: rest) := rfl
    have hread6 : readRawBytes 6 (t0 :: t1 :: t2 :: t3 :: t4 :: t5 :: rest)
        = some ([t0, t1, t2, t3, t4, t5], rest) := rfl
    have hht : tsHasTimePart d0 = 1 := by
      unfold tsHasTimePart; rw [byteLand1 d0 h0, hbit0]
    simp [decodeTimestampCell, hread, hread6, hht, hvalidD, hvalidT]

/-- C5, witness: 2000-01-01 00:00:00.000000001 (time bytes with only `t0`
bit 1 set) decodes with nanoseconds 1, consuming all 10 bytes. -/
theorem timestampTimeFieldsWitness :
    decodeTimestampCell [1, 0, 250, 0, 2, 0, 0, 0, 0, 0]
      = .ok (.Timestamp ⟨2000, 1, 1, 0, 0, 0, 1⟩, []) := by
  have h := (timestampTimeFields 1 0 250 0 2 0 0 0 0 0 [] (by decide) (by decide)
      (by decide) (by decide) (by decide) (by decide) (by decide) (by decide) (by decide)
      (by decide)).2.2.2.2.2 rfl (by decide) (by decide)
  exact h.trans (by decide)

/-- C5, counterexample to the claim as stated: the nanoseconds field is
not 22 bits wide — the row bytes below decode successfully to a cell
whose nanoseconds value is `2^30 - 1 = 1073741823`, which exceeds both
`2^22 - 1` and `10^9 - 1`. -/
theorem timestampNanoWidthCounterexample :
    decodeTimestampCell [1, 0, 250, 0, 254, 255, 255, 127, 0, 0]
      = .ok (.Timestamp ⟨2000, 1, 1, 0, 0, 0, 1073741823⟩, [])
    ∧ ¬ 1073741823 < 2 ^ 22 ∧ ¬ 1073741823 ≤ 10 ^ 9 - 1 := by
  decide

/-- C6: for every non-NULL integer cell the per-column decoder reads INT8
as 1 raw byte reinterpreted as signed, UINT8 as 1 raw byte, INT16/UINT16
as 2 little-endian raw bytes, INT32/INT64 as unsigned protobuf varints
with the low 32 (resp. 64) bits reinterpreted as signed without zig-zag,
and UINT32/UINT64 as unsigned varints; decoding the standard encoding of
each boundary value yields back that value. -/
theorem integerBoundaryRoundtrip :
    decodeCell .INT8 (encInt8 (-128)) = .ok (.Int8 (-128), [])
    ∧ decodeCell .INT8 (encInt8 127) = .ok (.Int8 127, [])
    ∧ decodeCell .UINT8 (encUint8 0) = .ok (.Uint8 0, [])
    ∧ decodeCell .UINT8 (encUint8 255) = .ok (.Uint8 255, [])
    ∧ decodeCell .INT16 (encInt16 (-32768)) = .ok (.Int16 (-32768), [])
    ∧ decodeCell .INT16 (encInt16 32767) = .ok (.Int16 32767, [])
    ∧ decodeCell .UINT16 (encUint16 0) = .ok (.Uint16 0, [])
    ∧ decodeCell .UINT16 (encUint16 65535) = .ok (.Uint16 65535, [])
    ∧ decodeCell .INT32 (encInt32 (-2147483648)) = .ok (.Int32 (-2147483648), [])
    ∧ decodeCell .INT32 (encInt32 2147483647) = .ok (.Int32 2147483647, [])
    ∧ decodeCell .UINT32 (encUint32 0) = .ok (.Uint32 0, [])
    ∧ decodeCell .UINT32 (encUint32 4294967295) = .ok (.Uint32 4294967295, [])
    ∧ decodeCell .INT64 (encInt64 (-9223372036854775808))
        = .ok (.Int64 (-9223372036854775808), [])
    ∧ decodeCell .INT64 (encInt64 9223372036854775807)
        = .ok (.Int64 9223372036854775807, [])
    ∧ decodeCell .UINT64 (encUint64 0) = .ok (.Uint64 0, [])
    ∧ decodeCell .UINT64 (encUint64 18446744073709551615)
        = .ok (.Uint64 18446744073709551615, []) := by
  refine ⟨?_, ?_, ?_, ?_, ?_, ?_, ?_, ?_, ?_, ?_, ?_, ?_, ?_, ?_, ?_, ?_⟩ <;> decide

/-- C7: writing a frame `(t, m)` with `write_message` and reading it back
with `read_message` expecting tag `t` yields the message `m` (structural
equality is byte equality of the serialized message); reading the same
bytes with any expected tag `t2 ≠ t` fails with kind `protocol`, leaving
the stream positioned right after the tag varint, i.e. without consuming
the length prefix or the message body. -/
theorem framingRoundtrip (t t2 : Nat) (body rest : List Nat)
    (ht : t < 2 ^ 32) (_ht2 : t2 < 2 ^ 32) (hlen : body.length < 2 ^ 32) (hne : t2 ≠ t) :
    readMessage t (writeMessage t body ++ rest) = (.ok body, rest)
    ∧ readMessage t2 (writeMessage t body ++ rest)
        = (.err .protocol
            ("read_message | wrong message type received from Siodb: "
              ++ toString t ++ ". Expected: " ++ toString t2 ++ "."),
           encodeVarint body.length ++ (body ++ rest)) := by
  have h1 := readRawVarint32_encode t ht (encodeVarint body.length ++ (body ++ rest))
  have h2 := readRawVarint32_encode body.length hlen (body ++ rest)
  have h3 := readRawBytes_append body rest
  constructor
  · simp [readMessage, writeMessage, List.append_assoc, h1, h2, h3]
  · simp [readMessage, writeMessage, List.append_assoc, h1, hne]

/-- C7, witness: a concrete 1-byte message with tag 2, read back with
expected tags 2 and 5. -/
theorem framingRoundtripWitness :
    readMessage 2 (writeMessage 2 [7] ++ [9]) = (.ok [7], [9])
    ∧ readMessage 5 (writeMessage 2 [7] ++ [9])
        = (.err .protocol
            ("read_message | wrong message type received from Siodb: "
              ++ toString 2 ++ ". Expected: " ++ toString 5 ++ "."),
           encodeVarint 1 ++ ([7] ++ [9])) := by
  have h := framingRoundtrip 2 5 [7] [9] (by decide) (by decide) (by decide) (by decide)
  exact ⟨h.1, h.2⟩

/-- C2: a row-length varint of 0 sets `end_of_row`, returns "no more
rows" without reading further (the stream is left right after the
varint), and every subsequent `next()` also returns "no more rows"; a
non-zero row length hands over to the row decoder, and a successfully
decoded row bumps `row_count` by exactly 1, is stored as `current_row`,
and yields "row available". -/
theorem nextZeroSentinel (rs : ResultSet) (s s1 : List Nat) (n : Nat)
    (hE : rs.end_of_row = false) (hRead : readRawVarint32 s = some (n, s1)) :
    (n = 0 → next rs s = (.ok false, { rs with end_of_row := true }, s1)
      ∧ ∀ streams, ∀ o ∈ nextCalls { rs with end_of_row := true } streams, o = .ok false)
    ∧ (n ≠ 0 → ∀ bm s2,
        (if rs.null_bit_mask_present
          then readRawBytes rs.null_bit_mask_byte_size s1
          else some ([], s1)) = some (bm, s2) →
        next rs s = finishRow rs bm s2)
    ∧ (∀ bm s2 row s3,
        decodeRowCells rs.server_response.column_description 0
            rs.null_bit_mask_present bm s2 = .ok (row, s3) →
        finishRow rs bm s2
          = (.ok true,
             { rs with row_count := rs.row_count + 1, current_row := some row }, s3)) := by
  refine ⟨?_, ?_, ?_⟩
  · intro hn
    subst hn
    exact ⟨by simp [next, hE, hRead], nextCalls_drained _ rfl⟩
  · intro hn bm s2 hbm
    simp [next, hE, hRead, hn, hbm]
  · intro bm s2 row s3 hdec
    simp [finishRow, hdec]

/-- Concrete `ServerResponse` and streaming `ResultSet` used by the
witnesses: one non-nullable UINT8 column, no error messages. -/
def respW : ServerResponse :=
  { message := []
    column_description := [{ field_type := .UINT8, is_null := false }]
    has_affected_row_count := false
    affected_row_count := 0 }

def rsW : ResultSet := { ResultSet.new respW with end_of_row := false }

/-- C2, witness: on the zero-length row frame `[0]` the streaming result
set transitions to `end_of_row` and reports "no more rows". -/
theorem nextZeroSentinelWitness :
    next rsW [0] = (.ok false, { rsW with end_of_row := true }, []) :=
  ((nextZeroSentinel rsW [0] [] 0 rfl rfl).1 rfl).1

/-- The frames `execute` writes whenever the drain guard passes: exactly
one `Command` frame with tag 1, `request_id = 1` and the SQL text. -/
theorem execute_writes_command (st : ConnState) (sql : String) (resp : ServerResponse)
    (hok : (st.result_set.map fun r => !r.end_of_row).getD false = false) :
    (execute st sql resp).2.2 = [Frame.mk 1 (.command 1 sql)] := by
  unfold execute
  rw [if_neg (by rw [hok]; simp)]
  dsimp only
  split
  · rfl
  · split <;> rfl

/-- C3: while a result set is still streaming (`end_of_row` false),
`execute` fails with kind `misuse`, writes no Command frame and leaves
the connection state untouched; once `end_of_row` is true, or when no
result set exists, `execute` proceeds and writes the Command frame. -/
theorem executeMisuseGuard (st : ConnState) (rs : ResultSet) (sql : String)
    (resp : ServerResponse) :
    (st.result_set = some rs → rs.end_of_row = false →
      execute st sql resp
        = (.err .misuse "execute | There is still data in the buffer.", st, []))
    ∧ (st.result_set = none →
        (execute st sql resp).2.2 = [Frame.mk 1 (.command 1 sql)])
    ∧ (st.result_set = some rs → rs.end_of_row = true →
        (execute st sql resp).2.2 = [Frame.mk 1 (.command 1 sql)]) := by
  refine ⟨?_, ?_, ?_⟩
  · intro h1 h2
    simp [execute, h1, h2]
  · intro h1
    exact execute_writes_command st sql resp (by simp [h1])
  · intro h1 h2
    exact execute_writes_command st sql resp (by simp [h1, h2])

/-- C3, witness: with the streaming result set `rsW` installed, `execute`
is rejected with `misuse`, writes nothing, and changes nothing. -/
theorem executeMisuseGuardWitness :
    execute ⟨some rsW⟩ "SELECT 1" respW
      = (.err .misuse "execute | There is still data in the buffer.", ⟨some rsW⟩, []) :=
  (executeMisuseGuard ⟨some rsW⟩ rsW "SELECT 1" respW).1 rfl rfl

/-- C10: whenever `next()` returns an error value (which only the
unrecognized-data-type arm produces, with kind `protocol`), `row_count`
has already been incremented by exactly 1 and `current_row` still holds
its previous content — the result-set state is not left unchanged on a
mid-row decode error. -/
theorem nextMidRowError (rs : ResultSet) (s : List Nat) (o : Outcome Bool)
    (rs2 : ResultSet) (s2 : List Nat) (h : next rs s = (o, rs2, s2)) :
    (∀ k m, o = .err k m →
      k = .protocol ∧ rs2.row_count = rs.row_count + 1
        ∧ rs2.current_row = rs.current_row ∧ rs2.end_of_row = rs.end_of_row)
    ∧ ∀ str, decodeCell .OTHER str = .err .protocol "read_data | Unknow data type." := by
  refine ⟨?_, fun str => rfl⟩
  intro k m ho
  subst ho
  unfold next at h
  by_cases hE : rs.end_of_row = true
  · rw [if_pos hE] at h
    simp at h
  · rw [if_neg hE] at h
    rcases hv : readRawVarint32 s with - | ⟨n, s1⟩ <;> rw [hv] at h
    · simp at h
    · dsimp only at h
      by_cases hn : n = 0
      · rw [if_pos hn] at h
        simp at h
      · rw [if_neg hn] at h
        rcases hbm : (if rs.null_bit_mask_present
            then readRawBytes rs.null_bit_mask_byte_size s1
            else some ([], s1)) with - | ⟨bm, s3⟩ <;> rw [hbm] at h
        · simp at h
        · obtain ⟨hk, hrs⟩ := finishRow_err rs bm s3 k m rs2 s2 h
          subst hrs
          exact ⟨hk, rfl, rfl, rfl⟩

/-- Concrete streaming result set over a single column of an unrecognized
data type, used by the C10 witness. -/
def respX : ServerResponse :=
  { message := []
    column_description := [{ field_type := .OTHER, is_null := false }]
    has_affected_row_count := false
    affected_row_count := 0 }

def rsX : ResultSet := { ResultSet.new respX with end_of_row := false }

/-- C10, witness: on the row frame `[1]` over the unknown-type column,
`next` fails with `protocol` while the returned state carries
`row_count` bumped by 1 and an unchanged `current_row`. -/
theorem nextMidRowErrorWitness :
    ({ rsX with row_count := 1 } : ResultSet).row_count = rsX.row_count + 1
    ∧ ({ rsX with row_count := 1 } : ResultSet).current_row = rsX.current_row := by
  have h := (nextMidRowError rsX [1] (.err .protocol "read_data | Unknow data type.")
      { rsX with row_count := 1 } [] (by decide)).1 .protocol
      "read_data | Unknow data type." rfl
  exact ⟨h.2.1, h.2.2.1⟩

/-- C8: when the ServerResponse carries error message entries, `execute`
fails with kind `server`, the error text contains the in-order
concatenation of the entries' texts, and the connection stays ready: the
stored result set has `end_of_row` true, so a subsequent `execute` is
not rejected with `misuse` and writes its Command frame. -/
theorem executeServerError (st : ConnState) (sql : String) (resp : ServerResponse)
    (hready : (st.result_set.map fun r => !r.end_of_row).getD false = false)
    (hmsg : resp.message ≠ []) :
    (execute st sql resp).1
        = .err .server ("execute | Error message(s) " ++ String.join resp.message ++ ".")
    ∧ (∃ pre post,
        "execute | Error message(s) " ++ String.join resp.message ++ "."
          = pre ++ String.join resp.message ++ post)
    ∧ (execute st sql resp).2.1 = { st with result_set := some (ResultSet.new resp) }
    ∧ (ResultSet.new resp).end_of_row = true
    ∧ (∀ sql2 resp2,
        (execute { st with result_set := some (ResultSet.new resp) } sql2 resp2).2.2
          = [Frame.mk 1 (.command 1 sql2)])
    ∧ (∀ sql2 resp2 k m,
        (execute { st with result_set := some (ResultSet.new resp) } sql2 resp2).1
          = .err k m → k ≠ .misuse) := by
  have hlen : 0 < resp.message.length := List.length_pos.mpr hmsg
  refine ⟨?_, ⟨"execute | Error message(s) ", ".", rfl⟩, ?_, rfl, ?_, ?_⟩
  · simp [execute, hready, hlen]
  · simp [execute, hready, hlen]
  · intro sql2 resp2
    exact execute_writes_command _ sql2 resp2 (by simp [ResultSet.new])
  · intro sql2 resp2 k m h
    unfold execute at h
    rw [if_neg (by simp [ResultSet.new])] at h
    dsimp only at h
    split at h
    · obtain ⟨hk, -⟩ := Outcome.err.inj h
      subst hk
      simp
    · split at h <;> simp at h

/-- C8, witness: messages `["syntax error", " at 1"]` produce a `server`
error whose text contains "syntax error at 1". -/
theorem executeServerErrorWitness :
    (execute ⟨none⟩ "SELECT bogus"
        ⟨["syntax error", " at 1"], [], false, 0⟩).1
      = .err .server "execute | Error message(s) syntax error at 1." := by
  have h := (executeServerError ⟨none⟩ "SELECT bogus"
      ⟨["syntax error", " at 1"], [], false, 0⟩ (by decide) (by decide)).1
  exact h.trans (by decide)

/-- C9 (amended): a `BeginSessionResponse` with `session_started` false,
or a `ClientAuthenticationResponse` with `authenticated` false, makes
connection construction fail with kind `auth`; an error while loading the
PEM RSA key or while signing the challenge, however, aborts the process
through `.expect(...)` (a panic) instead of being returned to the caller
as a driver error. -/
theorem authFailures (user : String) (env : AuthEnv) :
    (env.begin_session_response.session_started = false →
      authenticate user env
        = (.err .auth "Siodb session not started.",
           [Frame.mk 5 (.beginSessionRequest user)]))
    ∧ (env.begin_session_response.session_started = true →
        env.client_authentication_response.authenticated = false →
        ∀ contents rsa keypair signer signature,
          env.read_key_file = .ok contents →
          env.private_key_from_pem contents = .ok rsa →
          env.pkey_from_rsa rsa = .ok keypair →
          env.signer_new keypair = .ok signer →
          env.sign_oneshot_to_vec signer env.begin_session_response.challenge
            = .ok signature →
          authenticate user env
            = (.err .auth "Siodb session not started.",
               [Frame.mk 5 (.beginSessionRequest user),
                Frame.mk 7 (.clientAuthenticationRequest signature)]))
    ∧ (env.begin_session_response.session_started = true →
        ∀ e, env.read_key_file = .error e →
          (authenticate user env).1 = .fatal "Error reading private key") := by
  refine ⟨?_, ?_, ?_⟩
  · intro h
    simp [authenticate, h]
  · intro h1 h2 contents rsa keypair signer signature e1 e2 e3 e4 e5
    simp [authenticate, h1, h2, e1, e2, e3, e4, e5]
  · intro h1 e he
    simp [authenticate, h1, he]

/-- Environment for the C9 witness and counterexample: server starts the
session, the identity file is unreadable, every other external call would
succeed, and the server would authenticate. -/
def envKeyErr : AuthEnv :=
  { begin_session_response := { session_started := true, challenge := [1, 2] }
    read_key_file := .error "No such file or directory"
    private_key_from_pem := fun _ => .ok 0
    pkey_from_rsa := fun _ => .ok 0
    signer_new := fun _ => .ok 0
    sign_oneshot_to_vec := fun _ _ => .ok []
    client_authentication_response := { authenticated := true } }

def envNoSession : AuthEnv :=
  { envKeyErr with
    begin_session_response := { session_started := false, challenge := [1, 2] }
    read_key_file := .ok "key" }

/-- C9, counterexample to the claim as stated: with the identity file
unreadable, `authenticate` does not return a driver error of kind `auth`
(or any driver error at all) — it panics, so the failure never reaches
the caller as a value. -/
theorem authKeyErrorPanics :
    (authenticate "root" envKeyErr).1 = .fatal "Error reading private key"
    ∧ ∀ k m, (authenticate "root" envKeyErr).1 ≠ .err k m := by
  refine ⟨rfl, ?_⟩
  intro k m h
  rw [show (authenticate "root" envKeyErr).1 = .fatal "Error reading private key" from rfl] at h
  exact Outcome.noConfusion h

/-- C9, witness: `session_started = false` fails with kind `auth` after
writing only the BeginSessionRequest frame. -/
theorem authFailuresWitness :
    authenticate "root" envNoSession
      = (.err .auth "Siodb session not started.",
         [Frame.mk 5 (.beginSessionRequest "root")]) :=
  (authFailures "root" envNoSession).1 rfl

/-- C1: for a streaming result set whose response declares at least one
nullable column, `execute` records `null_bit_mask_present` and the bitmap
size `⌈n/8⌉`, and `next()` consumes exactly that many bitmap bytes right
after the non-zero row-length varint before decoding the column payload;
cell `i` of the decoded row is NULL iff bit `i mod 8` of bitmap byte
`⌊i/8⌋` is set, and a NULL cell consumes zero payload bytes.  When no
column is nullable, no bitmap bytes are read before the column payload. -/
theorem nullBitmapHandling (resp : ServerResponse) (sql : String) (rs : ResultSet)
    (hmsg : resp.message = [])
    (hcols : resp.column_description ≠ [])
    (hrs : (execute ⟨none⟩ sql resp).2.1.result_set = some rs) :
    (resp.column_description.any (fun c => c.is_null) = true →
      rs.null_bit_mask_present = true
        ∧ rs.null_bit_mask_byte_size = (resp.column_description.length + 7) / 8)
    ∧ rs.end_of_row = false
    ∧ rs.server_response = resp
    ∧ (rs.null_bit_mask_present = true →
        ∀ L bm payload, L ≠ 0 → L < 2 ^ 32 → bm.length = rs.null_bit_mask_byte_size →
          next rs (encodeVarint L ++ (bm ++ payload)) = finishRow rs bm payload)
    ∧ (resp.column_description.any (fun c => c.is_null) = false →
        rs.null_bit_mask_present = false
          ∧ ∀ L payload, L ≠ 0 → L < 2 ^ 32 →
              next rs (encodeVarint L ++ payload) = finishRow rs [] payload)
    ∧ (∀ idx bm s row sfin, (∀ b ∈ bm, b < 256) →
        decodeRowCells resp.column_description idx true bm s = .ok (row, sfin) →
        ∀ i, i < resp.column_description.length →
          (row.get? i = some none
            ↔ Nat.testBit (bm.getD ((idx + i) / 8) 0) ((idx + i) % 8) = true))
    ∧ (∀ col rest2 idx bm s, (∀ b ∈ bm, b < 256) →
        Nat.testBit (bm.getD (idx / 8) 0) (idx % 8) = true →
        ∀ row sfin, decodeRowCells rest2 (idx + 1) true bm s = .ok (row, sfin) →
          decodeRowCells (col :: rest2) idx true bm s = .ok (none :: row, sfin)) := by
  have hlen0 : ¬ resp.message.length > 0 := by simp [hmsg]
  have hcl : resp.column_description.length > 0 := List.length_pos.mpr hcols
  have hiff : ∀ idx bm s row sfin, (∀ b ∈ bm, b < 256) →
      decodeRowCells resp.column_description idx true bm s = .ok (row, sfin) →
      ∀ i, i < resp.column_description.length →
        (row.get? i = some none
          ↔ Nat.testBit (bm.getD ((idx + i) / 8) 0) ((idx + i) % 8) = true) :=
    fun idx bm s row sfin hb hdec =>
      decodeRowCells_null_iff resp.column_description idx bm s row sfin hb hdec
  have hskip : ∀ (col : ColumnDescription) rest2 idx bm (s : List Nat),
      (∀ b ∈ bm, b < 256) →
      Nat.testBit (bm.getD (idx / 8) 0) (idx % 8) = true →
      ∀ row sfin, decodeRowCells rest2 (idx + 1) true bm s = .ok (row, sfin) →
        decodeRowCells (col :: rest2) idx true bm s = .ok (none :: row, sfin) := by
    intro col rest2 idx bm s hb htb row sfin hrec
    have hbyte : bm.getD (idx / 8) 0 < 256 := getD_lt_256 bm hb _
    have hbit := byteMaskBit _ hbyte (idx % 8) (Nat.mod_lt _ (by norm_num))
    rw [decodeRowCells,
      if_pos (by unfold cellIsNull; rw [if_pos rfl, hbit, if_pos htb]), hrec]
  unfold execute at hrs
  rw [if_neg (by simp)] at hrs
  dsimp only at hrs
  rw [if_neg hlen0, if_pos hcl] at hrs
  by_cases hany : resp.column_description.any (fun c => c.is_null) = true
  · rw [if_pos hany] at hrs
    dsimp only at hrs
    have hre := Option.some.inj hrs
    subst hre
    refine ⟨fun _ => ⟨rfl, ?_⟩, rfl, rfl, ?_, ?_, hiff, hskip⟩
    · show (if resp.column_description.length % 8 = 0
          then resp.column_description.length / 8
          else resp.column_description.length / 8 + 1)
        = (resp.column_description.length + 7) / 8
      split <;> omega
    · intro hp L bm payload hL hL32 hbm
      exact next_reads_bitmap _ rfl hp L bm payload hL hL32 hbm
    · intro habs
      exact absurd habs (by simp [hany])
  · rw [if_neg hany] at hrs
    dsimp only at hrs
    have hre := Option.some.inj hrs
    subst hre
    refine ⟨fun habs => absurd habs (by simpa using hany), rfl, rfl, ?_, ?_, hiff, hskip⟩
    · intro hp
      exact absurd hp (by simp [ResultSet.new])
    · intro _
      refine ⟨rfl, ?_⟩
      intro L payload hL hL32
      exact next_no_bitmap _ rfl rfl L payload hL hL32

/-- Streaming result set over one nullable UINT8 column, exactly as
`execute` builds it, for the C1 witness. -/
def resp1 : ServerResponse :=
  { message := []
    column_description := [{ field_type := .UINT8, is_null := true }]
    has_affected_row_count := false
    affected_row_count := 0 }

def rs1 : ResultSet :=
  { server_response := resp1
    null_bit_mask_present := true
    null_bit_mask_byte_size := 1
    end_of_row := false
    row_count := 0
    current_row := none }

/-- C1, witness: after `execute` installs the one-nullable-column result
set, `next` on row frame `varint 1 ++ bitmap [1]` consumes the single
bitmap byte and hands the empty payload to the row decoder. -/
theorem nullBitmapHandlingWitness :
    next rs1 (encodeVarint 1 ++ ([1] ++ [])) = finishRow rs1 [1] [] :=
  ((nullBitmapHandling resp1 "q" rs1 rfl (by decide) (by decide)).2.2.2.1 rfl)
    1 [1] [] (by decide) (by decide) rfl

end Siodb
